import Mathlib

/-!
Shallow embedding of `main.go` of the apptranslator repository (package
`main`), together with small models of the parts of the `store` package
that `main.go` uses (`store.StoreCsv`, `store.NewStoreCsv`,
`store.Languages`), which are part of the repository but whose source is
not available; those models follow the specification's description of the
Translation Index and the App Registry.

Go strings are Lean `String`s, Go `*string` is `Option String`, Go `nil`
errors are `none` / `Except.ok`.  Go package-level globals read by a
function (`dataDir`, `store.Languages`, the command-line flags, `config`,
`appState.Apps`) become explicit parameters of the embedded function, and
a function mutating a global returns the new value of that global.
-/

/-- Modelled from the spec: `store.StoreCsv` (the per-namespace Translation
Index of the `store` package, missing from the available source).  For the
claims below only its per-namespace set of languages matters: the spec says
the index keeps per-language state and a cached `languagesCount` aggregate
that must equal a full recomputation over the index. -/
structure StoreCsv where
  langs : List String
  deriving DecidableEq

/-- Modelled from the spec: the full recomputation of the language count
over a namespace's current Translation Index (the commented-out
`a.store.LangsCount()` path in `main.go`). -/
def StoreCsv.LangsCount (s : StoreCsv) : Nat :=
  s.langs.length

/-- Go: `type AppConfig struct` in `main.go` — static configuration of a
single app. -/
structure AppConfig where
  Name : String
  Url : String
  DataDir : String
  AdminTwitterUser : String
  AdminTwitterUser2 : String
  UploadSecret : String
  deriving DecidableEq

/-- Go: `type App struct { AppConfig; store *store.StoreCsv }`.  The
embedded `AppConfig` fields are flattened (Go promotes them); the `store`
pointer is `none` until `readAppData` sets it. -/
structure App where
  Name : String
  Url : String
  DataDir : String
  AdminTwitterUser : String
  AdminTwitterUser2 : String
  UploadSecret : String
  store : Option StoreCsv
  deriving DecidableEq

/-- Go: `func NewApp(config *AppConfig) *App` — copies the config, store
pointer starts nil. -/
def NewApp (config : AppConfig) : App :=
  { Name := config.Name
    Url := config.Url
    DataDir := config.DataDir
    AdminTwitterUser := config.AdminTwitterUser
    AdminTwitterUser2 := config.AdminTwitterUser2
    UploadSecret := config.UploadSecret
    store := none }

/-- Go: `func (a *App) LangsCount() int { return len(store.Languages) }`.
The body reads the package-level variable `store.Languages` (the global
list of supported languages, here the explicit parameter `Languages`); the
per-app alternative `a.store.LangsCount()` is commented out in the source.
The parameter `a` is unused, exactly as in the source body. -/
def App.LangsCount (Languages : List String) (_a : App) : Nat :=
  Languages.length

/-- Go: `func stringEmpty(s *string) bool` — nil or zero-length. -/
def stringEmpty : Option String → Bool
  | none => true
  | some s => s.length == 0

/-- The part of the Go `config` global that the embedded functions read:
`Apps` plus the four S3-backup fields (all `*string` in Go). -/
structure Config where
  Apps : List AppConfig
  AwsAccess : Option String
  AwsSecret : Option String
  S3BackupBucket : Option String
  S3BackupDir : Option String
  deriving DecidableEq

/-- Go: `func s3BackupEnabled() bool`.  Reads the flags `-no-backup` and
`-production` and the four backup fields of `config`; the logging calls on
each early return are omitted (they only write to the logger). -/
def s3BackupEnabled (noS3Backup inProduction : Bool) (config : Config) : Bool :=
  if noS3Backup then false
  else if !inProduction then false
  else if stringEmpty config.AwsAccess then false
  else if stringEmpty config.AwsSecret then false
  else if stringEmpty config.S3BackupBucket then false
  else if stringEmpty config.S3BackupDir then false
  else true

/-- The filesystem and store-opening environment `main.go` works against:
`u.PathExists` from the `u` helper package, and `store.NewStoreCsv`.
`newStoreCsv` is modelled from the spec: `load` opens the durable log at
the given path and rebuilds the Translation Index from it, and a
corruption error during replay fails the load (spec §4.2, §7), so opening
an existing file may fail. -/
structure FS where
  pathExists : String → Bool
  newStoreCsv : String → Except String StoreCsv

/-- Models Go `filepath.Join` of two nonempty-component paths: join with a
single separator. -/
def filepathJoin (a b : String) : String :=
  a ++ "/" ++ b

/-- Go: `func (a *App) storeCsvFilePath() string`.  `getDataDir()` is the
explicit `dataDir` parameter (the package-level global it caches). -/
def App.storeCsvFilePath (dataDir : String) (a : App) : String :=
  let appDataDir := filepathJoin dataDir a.DataDir
  let dataFilePath := filepathJoin appDataDir "translations.csv"
  dataFilePath

/-- Go: `func readAppData(app *App) error`.  If the csv file exists and
`store.NewStoreCsv` succeeds, sets `app.store` and returns nil; on every
other path (file absent, or `NewStoreCsv` failed) it falls through to the
single `fmt.Errorf("readAppData: %q data file doesn't exist", path)`.
Returns the updated app on success (Go mutates `app` through the
pointer). -/
def readAppData (fs : FS) (dataDir : String) (app : App) : Except String App :=
  let path := App.storeCsvFilePath dataDir app
  if fs.pathExists path then
    match fs.newStoreCsv path with
    | Except.ok l => Except.ok { app with store := some l }
    | Except.error _ =>
        Except.error ("readAppData: \"" ++ path ++ "\" data file doesn't exist")
  else
    Except.error ("readAppData: \"" ++ path ++ "\" data file doesn't exist")

/-- Go: `func findApp(name string) *App` — linear scan of `appState.Apps`
(the explicit `apps` parameter), first app whose `Name` equals `name`. -/
def findApp (apps : List App) (name : String) : Option App :=
  apps.find? (fun app => app.Name == name)

/-- Go: `func appAlreadyExists(name string) bool`. -/
def appAlreadyExists (apps : List App) (name : String) : Bool :=
  (findApp apps name).isSome

/-- Models Go `strings.TrimSpace`: removes leading and trailing whitespace
characters. -/
def trimSpace (s : String) : String :=
  ⟨((s.data.dropWhile Char.isWhitespace).reverse.dropWhile Char.isWhitespace).reverse⟩

/-- Go: `func appInvalidField(app *App) string`.  First trims whitespace
off `app.Name` in place (`trimSpace` models `strings.TrimSpace`), then
returns the name of the first empty required field, or `""` when all are
present.  Returns the mutated app alongside the field name. -/
def appInvalidField (app : App) : App × String :=
  let app := { app with Name := trimSpace app.Name }
  if app.Name == "" then (app, "Name")
  else if app.DataDir == "" then (app, "DataDir")
  else if app.AdminTwitterUser == "" then (app, "AdminTwitterUser")
  else if app.UploadSecret == "" then (app, "UploadSecret")
  else (app, "")

/-- Go: `func addApp(app *App) error`.  Validates fields, rejects a
duplicate name, loads the app's data, and only then appends to
`appState.Apps`.  The pair returned is (the error, the new value of the
global `appState.Apps`); on every error path the list is returned
unchanged.  `fmt.Errorf("App has invalid field %q", f)` quotes the field
name. -/
def addApp (fs : FS) (dataDir : String) (apps : List App) (app : App) :
    Option String × List App :=
  let v := appInvalidField app
  let app := v.1
  let invalidField := v.2
  if invalidField != "" then
    (some ("App has invalid field \"" ++ invalidField ++ "\""), apps)
  else if appAlreadyExists apps app.Name then
    (some "App already exists", apps)
  else
    match readAppData fs dataDir app with
    | Except.error e => (some e, apps)
    | Except.ok app => (none, apps ++ [app])

/-- Go: `func userIsAdmin(app *App, user string) bool`. -/
def userIsAdmin (app : App) (user : String) : Bool :=
  if user == "" then false
  else user == app.AdminTwitterUser || user == app.AdminTwitterUser2

/-- The `for _, appData := range config.Apps { ... addApp ... }` loop of
`main`: registers each configured app in order, stopping at the first
failure (`log.Fatalf` terminates the process).  Returns the fatal message,
if any, and the final `appState.Apps`.  The name in the fatal message is
the app's name after `appInvalidField` trimmed it in place. -/
def addApps (fs : FS) (dataDir : String) (apps : List App) :
    List AppConfig → Option String × List App
  | [] => (none, apps)
  | c :: rest =>
    match addApp fs dataDir apps (NewApp c) with
    | (some e, apps) =>
        (some ("Failed to add the app: " ++ trimSpace c.Name ++ ", err: " ++ e), apps)
    | (none, apps) => addApps fs dataDir apps rest

/-- Outcome of the startup part of `main`: either the process terminated
via `log.Fatalf` (or a panic) before serving, or it reached the serving
code with the given registered apps and backup setting. -/
inductive StartupResult where
  | fatal (msg : String)
  | serving (apps : List App) (s3backup : Bool)
  deriving DecidableEq

/-- Go: the startup sequence of `func main()` after `flag.Parse()`:
read the config (`readConfig` result is the `readConfigResult` parameter,
its body being I/O and cookie setup), register every configured app
(fatal on the first failure), fatal if zero apps, build `backupConfig` by
dereferencing the four `*string` backup fields (a nil pointer here
panics, also terminating before serving), then start serving with
`s3BackupEnabled()` deciding whether the backup loop runs. -/
def mainStartup (fs : FS) (dataDir : String)
    (readConfigResult : Except String Config)
    (noS3Backup inProduction : Bool) : StartupResult :=
  match readConfigResult with
  | Except.error e => StartupResult.fatal ("Failed reading config file. " ++ e)
  | Except.ok config =>
    match addApps fs dataDir [] config.Apps with
    | (some e, _) => StartupResult.fatal e
    | (none, apps) =>
      if apps.length == 0 then
        StartupResult.fatal "No apps defined in config.json"
      else
        match config.AwsAccess, config.AwsSecret,
            config.S3BackupBucket, config.S3BackupDir with
        | some _, some _, some _, some _ =>
            StartupResult.serving apps (s3BackupEnabled noS3Backup inProduction config)
        | _, _, _, _ =>
            StartupResult.fatal "panic: nil pointer dereference building BackupConfig"

/-! Concrete instances used by counterexamples and witnesses. -/

/-- A filesystem on which every path exists and every store opens to an
index with no languages. -/
def fsAllOk : FS :=
  { pathExists := fun _ => true
    newStoreCsv := fun _ => Except.ok { langs := [] } }

/-- A filesystem on which every path exists but every store fails to open
(corrupt log, per spec §7 a load-time failure). -/
def fsCorrupt : FS :=
  { pathExists := fun _ => true
    newStoreCsv := fun _ => Except.error "corrupt record at offset 0" }

/-- A filesystem with no files at all. -/
def fsEmpty : FS :=
  { pathExists := fun _ => false
    newStoreCsv := fun _ => Except.error "no such file" }

/-- A fully valid app configuration. -/
def cfgEx : AppConfig :=
  { Name := "sumatra"
    Url := "http://example.org"
    DataDir := "sumatra"
    AdminTwitterUser := "admin1"
    AdminTwitterUser2 := ""
    UploadSecret := "secret" }

/-- The app built from `cfgEx` once loaded on `fsAllOk`. -/
def appExLoaded : App :=
  { Name := "sumatra"
    Url := "http://example.org"
    DataDir := "sumatra"
    AdminTwitterUser := "admin1"
    AdminTwitterUser2 := ""
    UploadSecret := "secret"
    store := some { langs := [] } }

/-- A loaded app whose own index has an empty language list. -/
def appC1 : App :=
  { Name := "a"
    Url := ""
    DataDir := "a"
    AdminTwitterUser := "adm"
    AdminTwitterUser2 := ""
    UploadSecret := "s"
    store := some { langs := [] } }

/-- A config with one app and all backup fields present. -/
def configEx : Config :=
  { Apps := [cfgEx]
    AwsAccess := some "AK"
    AwsSecret := some "SK"
    S3BackupBucket := some "bucket"
    S3BackupDir := some "dir" }

/-! Helper lemmas (shared, not tied to any one claim). -/

theorem stringEmpty_false_iff (s : Option String) :
    stringEmpty s = false ↔ ∃ t, s = some t ∧ t ≠ "" := by
  cases s with
  | none => simp [stringEmpty]
  | some t =>
    simp only [stringEmpty, beq_eq_false_iff_ne, ne_eq]
    constructor
    · intro h
      exact ⟨t, rfl, fun ht => h (by simp [ht])⟩
    · rintro ⟨u, hu, hne⟩ hlen
      cases hu
      exact hne (String.ext (by simpa [String.length] using List.length_eq_zero.mp hlen))

/-! Claim theorems. -/

/-- C6: `userIsAdmin(app, user)` is true exactly when `user` is non-empty
and equals the app's `AdminTwitterUser` or `AdminTwitterUser2`; it
consults nothing but the namespace's administrator list. -/
theorem c6_userIsAdmin_spec (app : App) (user : String) :
    userIsAdmin app user = true ↔
      user ≠ "" ∧ (user = app.AdminTwitterUser ∨ user = app.AdminTwitterUser2) := by
  unfold userIsAdmin
  by_cases h : user = ""
  · simp [h]
  · simp [h, beq_iff_eq]

/-- C9: an absent identity is never an administrator: `userIsAdmin(app, "")`
is false for every app, even when `AdminTwitterUser2` is the empty
string. -/
theorem c9_userIsAdmin_empty_user (app : App) :
    userIsAdmin app "" = false := by
  simp [userIsAdmin]

/-- C10: S3 backup is enabled iff the `-no-backup` flag is false, the
`-production` flag is true, and each of `AwsAccess`, `AwsSecret`,
`S3BackupBucket`, `S3BackupDir` is present (non-nil) and non-empty. -/
theorem c10_s3BackupEnabled_spec (noS3Backup inProduction : Bool) (config : Config) :
    s3BackupEnabled noS3Backup inProduction config = true ↔
      noS3Backup = false ∧ inProduction = true ∧
      (∃ t, config.AwsAccess = some t ∧ t ≠ "") ∧
      (∃ t, config.AwsSecret = some t ∧ t ≠ "") ∧
      (∃ t, config.S3BackupBucket = some t ∧ t ≠ "") ∧
      (∃ t, config.S3BackupDir = some t ∧ t ≠ "") := by
  simp only [← stringEmpty_false_iff]
  unfold s3BackupEnabled
  cases noS3Backup <;> cases inProduction <;>
    cases h1 : stringEmpty config.AwsAccess <;>
    cases h2 : stringEmpty config.AwsSecret <;>
    cases h3 : stringEmpty config.S3BackupBucket <;>
    cases h4 : stringEmpty config.S3BackupDir <;>
    simp [h1, h2, h3, h4]

/-- C1 counterexample: the claim "App.LangsCount() returns the number of
languages of that app's own index" is false at a concrete input: with the
global supported-language list `["en"]` and an app whose own index has no
languages, `LangsCount` returns 1 while recomputation over the app's index
yields 0. -/
theorem c1_langsCount_counterexample :
    appC1.store = some { langs := [] } ∧
    StoreCsv.LangsCount { langs := [] } = 0 ∧
    App.LangsCount ["en"] appC1 = 1 ∧
    App.LangsCount ["en"] appC1 ≠ StoreCsv.LangsCount { langs := [] } := by
  refine ⟨rfl, rfl, rfl, by decide⟩

/-- C1 amended: `App.LangsCount` returns the length of the package-global
`store.Languages` list; it is independent of the app and in particular of
the app's own Translation Index state — any two apps get the same value. -/
theorem c1_langsCount_amended (Languages : List String) (a b : App) :
    App.LangsCount Languages a = Languages.length ∧
    App.LangsCount Languages a = App.LangsCount Languages b :=
  ⟨rfl, rfl⟩

/-- C2 counterexample: `readAppData` does not fail *exactly* when the file
is absent: on a filesystem where the csv file exists but the store fails
to open (corrupt log), it still fails — and with the same "data file
doesn't exist" message. -/
theorem c2_readAppData_counterexample :
    fsCorrupt.pathExists (App.storeCsvFilePath "data" (NewApp cfgEx)) = true ∧
    readAppData fsCorrupt "data" (NewApp cfgEx) =
      Except.error "readAppData: \"data/sumatra/translations.csv\" data file doesn't exist" :=
  ⟨rfl, rfl⟩

/-- C2 amended: `readAppData` fails (with the "data file doesn't exist"
error naming the configured path) exactly when the csv file is absent at
the configured storage path or the store fails to open it; it never
creates the file (the embedding reads the filesystem only); when the file
exists and the store opens successfully it returns nil and sets
`app.store`. -/
theorem c2_readAppData_spec (fs : FS) (dataDir : String) (app : App) :
    ((∃ e, readAppData fs dataDir app = Except.error e) ↔
      (fs.pathExists (App.storeCsvFilePath dataDir app) = false ∨
       ∃ e, fs.newStoreCsv (App.storeCsvFilePath dataDir app) = Except.error e))
    ∧ (∀ s, fs.pathExists (App.storeCsvFilePath dataDir app) = true →
        fs.newStoreCsv (App.storeCsvFilePath dataDir app) = Except.ok s →
        readAppData fs dataDir app = Except.ok { app with store := some s }) := by
  constructor
  · cases hp : fs.pathExists (App.storeCsvFilePath dataDir app) with
    | false => simp [readAppData, hp]
    | true =>
      cases hs : fs.newStoreCsv (App.storeCsvFilePath dataDir app) with
      | error e => simp [readAppData, hp, hs]
      | ok s => simp [readAppData, hp, hs]
  · intro t hp ht
    simp [readAppData, hp, ht]

/-- C2 witness: on a filesystem where the file exists and opens, the spec
theorem yields the concrete successful load. -/
theorem c2_readAppData_spec_witness :
    readAppData fsAllOk "data" (NewApp cfgEx) =
      Except.ok { NewApp cfgEx with store := some { langs := [] } } :=
  (c2_readAppData_spec fsAllOk "data" (NewApp cfgEx)).2 { langs := [] } rfl rfl

/-- C7: `findApp` returns a registered app whose `Name` equals the
requested name whenever one exists, and `nil` exactly when no registered
app has that name. -/
theorem c7_findApp_spec (apps : List App) (name : String) :
    (∀ a, findApp apps name = some a → a ∈ apps ∧ a.Name = name)
    ∧ (findApp apps name = none ↔ ∀ a ∈ apps, a.Name ≠ name) := by
  constructor
  · intro a h
    refine ⟨List.mem_of_find?_eq_some h, ?_⟩
    have := List.find?_some h
    simpa [beq_iff_eq] using this
  · unfold findApp
    rw [List.find?_eq_none]
    simp [beq_iff_eq]

/-- C7 witness: resolving "sumatra" in a one-app registry returns that
registered app with the matching name. -/
theorem c7_findApp_spec_witness :
    appExLoaded ∈ [appExLoaded] ∧ appExLoaded.Name = "sumatra" :=
  (c7_findApp_spec [appExLoaded] "sumatra").1 appExLoaded rfl

/-- An app configuration whose name is whitespace only (empty after
trimming); the other required fields are present. -/
def appBadName : App :=
  { Name := "  "
    Url := ""
    DataDir := "d"
    AdminTwitterUser := "adm"
    AdminTwitterUser2 := ""
    UploadSecret := "s"
    store := none }

/-- Shared case analysis of `addApp`: on any error the registry list is
returned unchanged, and on success exactly one app, with its store set, is
appended. -/
theorem addApp_cases (fs : FS) (dataDir : String) (apps : List App) (app : App) :
    ((addApp fs dataDir apps app).1 = none →
        ∃ a, (addApp fs dataDir apps app).2 = apps ++ [a] ∧ a.store.isSome = true)
    ∧ (∀ e, (addApp fs dataDir apps app).1 = some e →
        (addApp fs dataDir apps app).2 = apps) := by
  rcases hv : appInvalidField app with ⟨app1, f⟩
  by_cases hf : f = ""
  · subst hf
    by_cases hd : appAlreadyExists apps app1.Name = true
    · constructor
      · intro hok
        simp [addApp, hv, hd] at hok
      · intro e _
        simp [addApp, hv, hd]
    · cases hr : readAppData fs dataDir app1 with
      | error e0 =>
        constructor
        · intro hok
          simp [addApp, hv, hd, hr] at hok
        · intro e _
          simp [addApp, hv, hd, hr]
      | ok a2 =>
        have ha2 : a2.store.isSome = true := by
          have := (c2_readAppData_spec fs dataDir app1).1
          cases hp : fs.pathExists (App.storeCsvFilePath dataDir app1) with
          | false =>
            exfalso
            have : ∃ e, readAppData fs dataDir app1 = Except.error e :=
              (c2_readAppData_spec fs dataDir app1).1.mpr (Or.inl hp)
            rcases this with ⟨e, he⟩
            rw [hr] at he
            cases he
          | true =>
            cases hs : fs.newStoreCsv (App.storeCsvFilePath dataDir app1) with
            | error e1 =>
              exfalso
              have : ∃ e, readAppData fs dataDir app1 = Except.error e :=
                (c2_readAppData_spec fs dataDir app1).1.mpr (Or.inr ⟨e1, hs⟩)
              rcases this with ⟨e, he⟩
              rw [hr] at he
              cases he
            | ok s =>
              have := (c2_readAppData_spec fs dataDir app1).2 s hp hs
              rw [hr] at this
              cases this
              rfl
        constructor
        · intro _
          exact ⟨a2, by simp [addApp, hv, hd, hr], ha2⟩
        · intro e he
          simp [addApp, hv, hd, hr] at he
  · constructor
    · intro hok
      simp [addApp, hv, hf] at hok
    · intro e _
      simp [addApp, hv, hf]

/-- C8: `addApp` is atomic with respect to the registry: whenever it
returns a non-nil error, `appState.Apps` is unchanged; the app is appended
(exactly one, at the end) only on success. -/
theorem c8_addApp_atomic (fs : FS) (dataDir : String) (apps : List App) (app : App) :
    (∀ e, (addApp fs dataDir apps app).1 = some e →
        (addApp fs dataDir apps app).2 = apps)
    ∧ ((addApp fs dataDir apps app).1 = none →
        ∃ a, (addApp fs dataDir apps app).2 = apps ++ [a]) := by
  refine ⟨(addApp_cases fs dataDir apps app).2, ?_⟩
  intro hok
  rcases (addApp_cases fs dataDir apps app).1 hok with ⟨a, ha, -⟩
  exact ⟨a, ha⟩

/-- C8 witness: registering an app with an invalid (whitespace-only) name
into an empty registry fails and leaves the registry empty. -/
theorem c8_addApp_atomic_witness :
    (addApp fsEmpty "data" [] appBadName).2 = ([] : List App) :=
  (c8_addApp_atomic fsEmpty "data" [] appBadName).1
    "App has invalid field \"Name\"" (by decide)

/-- C3: for every app config with a required field empty (the name after
trimming whitespace), `addApp` fails — leaving the registry unchanged —
with an error naming a missing field (the first one in the order Name,
DataDir, AdminTwitterUser, UploadSecret). -/
theorem c3_addApp_missing_field (fs : FS) (dataDir : String) (apps : List App) (app : App)
    (h : trimSpace app.Name = "" ∨ app.DataDir = "" ∨
      app.AdminTwitterUser = "" ∨ app.UploadSecret = "") :
    ∃ f,
      ((f = "Name" ∧ trimSpace app.Name = "") ∨ (f = "DataDir" ∧ app.DataDir = "") ∨
        (f = "AdminTwitterUser" ∧ app.AdminTwitterUser = "") ∨
        (f = "UploadSecret" ∧ app.UploadSecret = "")) ∧
      addApp fs dataDir apps app =
        (some ("App has invalid field \"" ++ f ++ "\""), apps) := by
  by_cases h1 : trimSpace app.Name = ""
  · exact ⟨"Name", Or.inl ⟨rfl, h1⟩, by simp [addApp, appInvalidField, h1]⟩
  · by_cases h2 : app.DataDir = ""
    · exact ⟨"DataDir", Or.inr (Or.inl ⟨rfl, h2⟩),
        by simp [addApp, appInvalidField, h1, h2]⟩
    · by_cases h3 : app.AdminTwitterUser = ""
      · exact ⟨"AdminTwitterUser", Or.inr (Or.inr (Or.inl ⟨rfl, h3⟩)),
          by simp [addApp, appInvalidField, h1, h2, h3]⟩
      · have h4 : app.UploadSecret = "" := by tauto
        exact ⟨"UploadSecret", Or.inr (Or.inr (Or.inr ⟨rfl, h4⟩)),
          by simp [addApp, appInvalidField, h1, h2, h3, h4]⟩

/-- C3 witness: an app whose name is whitespace only is rejected with the
error naming the Name field. -/
theorem c3_addApp_missing_field_witness :
    addApp fsEmpty "data" [] appBadName =
      (some "App has invalid field \"Name\"", []) := by
  obtain ⟨f, hf, he⟩ :=
    c3_addApp_missing_field fsEmpty "data" [] appBadName (Or.inl (by decide))
  rcases hf with ⟨rfl, -⟩ | ⟨-, h⟩ | ⟨-, h⟩ | ⟨-, h⟩
  · simpa using he
  all_goals simp [appBadName] at h

/-- C4: for every valid app config (all required fields present after
trimming) whose trimmed name collides with a registered app, `addApp`
fails with "App already exists" and the registry is unchanged; and when
registration succeeds, no app with that name was present. -/
theorem c4_addApp_duplicate (fs : FS) (dataDir : String) (apps : List App) (app : App)
    (hname : trimSpace app.Name ≠ "") (hdd : app.DataDir ≠ "")
    (hadm : app.AdminTwitterUser ≠ "") (hsec : app.UploadSecret ≠ "") :
    (appAlreadyExists apps (trimSpace app.Name) = true →
        addApp fs dataDir apps app = (some "App already exists", apps))
    ∧ ((addApp fs dataDir apps app).1 = none →
        appAlreadyExists apps (trimSpace app.Name) = false) := by
  constructor
  · intro hdup
    simp [addApp, appInvalidField, hname, hdd, hadm, hsec, hdup]
  · intro hok
    cases hdup : appAlreadyExists apps (trimSpace app.Name) with
    | false => rfl
    | true =>
      simp [addApp, appInvalidField, hname, hdd, hadm, hsec, hdup] at hok

/-- C4 witness: registering a second app named "sumatra" into a registry
that already holds one fails with "App already exists" and changes
nothing. -/
theorem c4_addApp_duplicate_witness :
    addApp fsAllOk "data" [appExLoaded] (NewApp cfgEx) =
      (some "App already exists", [appExLoaded]) :=
  (c4_addApp_duplicate fsAllOk "data" [appExLoaded] (NewApp cfgEx)
      (by decide) (by decide) (by decide) (by decide)).1 (by decide)

/-- Shared: a successful run of the registration loop starting from apps
that all have their store set yields only apps with their store set. -/
theorem addApps_stores (fs : FS) (dataDir : String) (cfgs : List AppConfig) :
    ∀ (apps : List App), (∀ a ∈ apps, a.store.isSome = true) →
      ∀ apps2, addApps fs dataDir apps cfgs = (none, apps2) →
      ∀ a ∈ apps2, a.store.isSome = true := by
  induction cfgs with
  | nil =>
    intro apps hinv apps2 h
    simp only [addApps, Prod.mk.injEq] at h
    rw [← h.2]
    exact hinv
  | cons c rest ih =>
    intro apps hinv apps2 h
    rcases hadd : addApp fs dataDir apps (NewApp c) with ⟨err, apps1⟩
    cases err with
    | some e =>
      simp [addApps, hadd] at h
    | none =>
      simp only [addApps, hadd] at h
      have h1 : (addApp fs dataDir apps (NewApp c)).1 = none := by rw [hadd]
      obtain ⟨a, ha, hstore⟩ := (addApp_cases fs dataDir apps (NewApp c)).1 h1
      have happs1 : apps1 = apps ++ [a] := by
        have h2 : (addApp fs dataDir apps (NewApp c)).2 = apps1 := by rw [hadd]
        rw [← h2, ha]
      subst happs1
      refine ih (apps ++ [a]) ?_ apps2 h
      intro b hb
      rcases List.mem_append.mp hb with hb | hb
      · exact hinv b hb
      · simp only [List.mem_singleton] at hb
        subst hb
        exact hstore

/-- C5: configuration errors are fatal at startup: a config-read failure,
an app that fails to register, or zero configured apps each make
`mainStartup` end in `fatal` (the process terminates before serving), and
conversely reaching the serving state implies the config was read, every
configured app registered successfully, at least one app exists, and every
served namespace is fully initialized (its store is set). -/
theorem c5_mainStartup_fatal_before_serving (fs : FS) (dataDir : String)
    (rc : Except String Config) (noS3Backup inProduction : Bool) :
    (∀ e, rc = Except.error e →
        ∃ m, mainStartup fs dataDir rc noS3Backup inProduction = StartupResult.fatal m)
    ∧ (∀ config e apps1, rc = Except.ok config →
        addApps fs dataDir [] config.Apps = (some e, apps1) →
        ∃ m, mainStartup fs dataDir rc noS3Backup inProduction = StartupResult.fatal m)
    ∧ (∀ config, rc = Except.ok config → config.Apps = [] →
        ∃ m, mainStartup fs dataDir rc noS3Backup inProduction = StartupResult.fatal m)
    ∧ (∀ apps s3,
        mainStartup fs dataDir rc noS3Backup inProduction = StartupResult.serving apps s3 →
        ∃ config, rc = Except.ok config ∧
          addApps fs dataDir [] config.Apps = (none, apps) ∧
          apps ≠ [] ∧ ∀ a ∈ apps, a.store.isSome = true) := by
  refine ⟨?_, ?_, ?_, ?_⟩
  · intro e he
    subst he
    exact ⟨"Failed reading config file. " ++ e, rfl⟩
  · intro config e apps1 hrc hadd
    subst hrc
    exact ⟨e, by simp [mainStartup, hadd]⟩
  · intro config hrc hempty
    subst hrc
    exact ⟨"No apps defined in config.json", by simp [mainStartup, hempty, addApps]⟩
  · intro apps s3 hserv
    cases rc with
    | error e => simp [mainStartup] at hserv
    | ok config =>
      rcases haa : addApps fs dataDir [] config.Apps with ⟨err, apps0⟩
      cases err with
      | some e => simp [mainStartup, haa] at hserv
      | none =>
        by_cases hlen : apps0.length = 0
        · simp [mainStartup, haa, hlen] at hserv
        · cases hA : config.AwsAccess with
          | none => simp [mainStartup, haa, hlen, hA] at hserv
          | some a =>
            cases hB : config.AwsSecret with
            | none => simp [mainStartup, haa, hlen, hA, hB] at hserv
            | some b =>
              cases hC : config.S3BackupBucket with
              | none => simp [mainStartup, haa, hlen, hA, hB, hC] at hserv
              | some c =>
                cases hD : config.S3BackupDir with
                | none => simp [mainStartup, haa, hlen, hA, hB, hC, hD] at hserv
                | some d =>
                  simp [mainStartup, haa, hlen, hA, hB, hC, hD] at hserv
                  obtain ⟨rfl, -⟩ := hserv
                  exact ⟨config, rfl, haa, fun hnil => hlen (by rw [hnil]; rfl),
                    addApps_stores fs dataDir config.Apps []
                      (fun a ha => absurd ha (List.not_mem_nil a)) apps0 haa⟩

/-- C5 witness: a one-app config on a filesystem where the data file
exists reaches the serving state, and the theorem yields that the single
registered app was fully loaded. -/
theorem c5_mainStartup_fatal_before_serving_witness :
    addApps fsAllOk "data" [] configEx.Apps = (none, [appExLoaded]) ∧
    appExLoaded.store.isSome = true := by
  obtain ⟨c, hc, h1, h2, h3⟩ :=
    (c5_mainStartup_fatal_before_serving fsAllOk "data"
        (Except.ok configEx) false false).2.2.2 [appExLoaded] false (by decide)
  cases hc
  exact ⟨h1, h3 appExLoaded (by simp)⟩

/-- C1 amended witness: concrete instance of the amended claim. -/
theorem c1_langsCount_amended_witness :
    App.LangsCount ["en"] appC1 = ["en"].length ∧
    App.LangsCount ["en"] appC1 = App.LangsCount ["en"] appExLoaded :=
  c1_langsCount_amended ["en"] appC1 appExLoaded

/-- C6 witness: the configured first administrator is recognized. -/
theorem c6_userIsAdmin_spec_witness :
    userIsAdmin appExLoaded "admin1" = true :=
  (c6_userIsAdmin_spec appExLoaded "admin1").mpr ⟨by decide, Or.inl rfl⟩

/-- C9 witness: concrete instance with an empty second admin slot. -/
theorem c9_userIsAdmin_empty_user_witness :
    userIsAdmin appExLoaded "" = false :=
  c9_userIsAdmin_empty_user appExLoaded

/-- C10 witness: with backups not disabled, in production, and all four
fields present and non-empty, backup is enabled. -/
theorem c10_s3BackupEnabled_spec_witness :
    s3BackupEnabled false true configEx = true :=
  (c10_s3BackupEnabled_spec false true configEx).mpr
    ⟨rfl, rfl, ⟨"AK", rfl, by decide⟩, ⟨"SK", rfl, by decide⟩,
      ⟨"bucket", rfl, by decide⟩, ⟨"dir", rfl, by decide⟩⟩
